import Mathlib

/-!
Verification of the attendance-computation core and tool-dispatch layer of the
`mcp-registro-ingreso` service.

The Python source is shallowly embedded: times of day are minute-resolution
pairs, monetary and hour quantities are rationals, and Python's
`round(x, 2)` (round-half-to-even at two decimals) is modelled by `round2`.
Database-backed operations are embedded as pure functions over explicit lists
of rows; the SQL `ORDER BY`, `LIMIT` and `ILIKE` constructs are given
executable semantics.
-/

namespace McpReportes

/-! ## Rounding: Python `round(x, 2)` (banker's rounding at two decimals) -/

/-- Round a rational to the nearest integer, ties to even
(the behaviour of Python's `round` on exact halves). -/
def rhe (q : ℚ) : ℤ :=
  let f : ℤ := ⌊q⌋
  let r : ℚ := q - f
  if r < 1/2 then f
  else if 1/2 < r then f + 1
  else if f % 2 = 0 then f else f + 1

/-- Python's `round(q, 2)`: round to two decimal places, ties to even. -/
def round2 (q : ℚ) : ℚ := (rhe (q * 100) : ℚ) / 100

/-- A rational that is a whole number of hundredths. -/
def Centi (q : ℚ) : Prop := ∃ k : ℤ, q = (k : ℚ) / 100

theorem rhe_intCast (k : ℤ) : rhe (k : ℚ) = k := by
  unfold rhe
  simp

theorem round2_centi (q : ℚ) : Centi (round2 q) := ⟨rhe (q * 100), rfl⟩

theorem round2_eq_self {q : ℚ} (h : Centi q) : round2 q = q := by
  obtain ⟨k, rfl⟩ := h
  unfold round2
  have h100 : ((k : ℚ) / 100) * 100 = (k : ℚ) := by ring
  rw [h100, rhe_intCast]

theorem centi_add {a b : ℚ} (ha : Centi a) (hb : Centi b) : Centi (a + b) := by
  obtain ⟨j, rfl⟩ := ha
  obtain ⟨k, rfl⟩ := hb
  exact ⟨j + k, by push_cast; ring⟩

theorem centi_sub {a b : ℚ} (ha : Centi a) (hb : Centi b) : Centi (a - b) := by
  obtain ⟨j, rfl⟩ := ha
  obtain ⟨k, rfl⟩ := hb
  exact ⟨j - k, by push_cast; ring⟩

theorem centi_zero : Centi 0 := ⟨0, by norm_num⟩

theorem centi_ofNat (n : ℕ) : Centi (n : ℚ) := ⟨(n : ℤ) * 100, by push_cast; ring⟩

theorem centi_min {a b : ℚ} (ha : Centi a) (hb : Centi b) : Centi (min a b) := by
  rcases le_total a b with h | h
  · rwa [min_eq_left h]
  · rwa [min_eq_right h]

theorem centi_max {a b : ℚ} (ha : Centi a) (hb : Centi b) : Centi (max a b) := by
  rcases le_total a b with h | h
  · rwa [max_eq_right h]
  · rwa [max_eq_left h]

/-! ## Time of day (minute resolution), `utils/calculos.py` -/

/-- A local time of day with minute resolution (the classifier and the spec
both work to one-minute precision). -/
structure Tm where
  hour : ℕ
  minute : ℕ
deriving DecidableEq, Repr

/-- Minutes since midnight. -/
def Tm.toMin (t : Tm) : ℕ := t.hour * 60 + t.minute

/-- `calcular_diferencia_horas` from `utils/calculos.py`: difference between
two times in fractional hours; when `fin < inicio` the interval is assumed to
cross midnight.  Mirrors the source's computation through second-valued
datetimes followed by `round(·, 2)`. -/
def calcular_diferencia_horas (inicio fin : Tm) : ℚ :=
  let inicioSec : ℚ := (inicio.toMin : ℚ) * 60
  let finSec : ℚ := (fin.toMin : ℚ) * 60 + (if fin.toMin < inicio.toMin then 86400 else 0)
  round2 ((finSec - inicioSec) / 3600)

/-- `calcular_horas_nocturnas` from `utils/calculos.py`: walks minute by
minute over the (midnight-normalized) interval, accumulating `1/60` for every
minute whose minute-of-day falls in the night window `[21:00, 24:00) ∪
[00:00, 06:00)`, then rounds to two decimals. -/
def calcular_horas_nocturnas (entrada salida : Tm) : ℚ :=
  let entradaMin := entrada.toMin
  let salidaMin := salida.toMin + (if salida.toMin < entrada.toMin then 1440 else 0)
  let total : ℚ := (List.range' entradaMin (salidaMin - entradaMin)).foldl
    (fun acc minuto =>
      if 1260 ≤ minuto % 1440 ∨ minuto % 1440 < 360 then acc + 1/60 else acc) 0
  round2 total

/-- Spec-side count (from the spec's words): the number of minutes of the
normalized interval whose minute-of-day lies in `[21:00, 24:00) ∪ [00:00,
06:00)`. -/
def minutosNocturnosSpec (entrada salida : Tm) : ℕ :=
  let entradaMin := entrada.toMin
  let salidaMin := salida.toMin + (if salida.toMin < entrada.toMin then 1440 else 0)
  ((List.range' entradaMin (salidaMin - entradaMin)).filter
    (fun minuto => decide (1260 ≤ minuto % 1440 ∨ minuto % 1440 < 360))).length

theorem noct_foldl_count (l : List ℕ) (acc : ℚ) :
    l.foldl (fun acc minuto =>
      if 1260 ≤ minuto % 1440 ∨ minuto % 1440 < 360 then acc + 1/60 else acc) acc
    = acc + ((l.filter
        (fun minuto => decide (1260 ≤ minuto % 1440 ∨ minuto % 1440 < 360))).length : ℚ) / 60 := by
  induction l generalizing acc with
  | nil => simp
  | cons m t ih =>
    by_cases h : 1260 ≤ m % 1440 ∨ m % 1440 < 360
    · simp only [List.foldl_cons, List.filter_cons, if_pos h]
      rw [ih]
      simp only [h, decide_eq_true_eq, if_true, decide_eq_true_iff]
      push_cast [List.length_cons]
      ring
    · simp only [List.foldl_cons, List.filter_cons, if_neg h]
      rw [ih]
      rw [if_neg (by simpa using h)]

/-! ## Punch events and interval pairing (`calcular_horas_dia`, pairing loop) -/

/-- Event kind; the database constrains `tipo_registro` to these two values. -/
inductive TipoRegistro where
  | ENTRADA
  | SALIDA
deriving DecidableEq, Repr

/-- One punch event row as consumed by the classifier
(`tipo_registro`, `hora_registro`). -/
structure Registro where
  tipo : TipoRegistro
  hora : Tm
deriving DecidableEq, Repr

/-- The inner `for j in range(i+1, len(registros))` scan of
`calcular_horas_dia`: offset of the first `SALIDA` in the given suffix. -/
def offsetPrimeraSalida : List Registro → Option ℕ
  | [] => none
  | s :: t =>
    if s.tipo = TipoRegistro.SALIDA then some 0
    else (offsetPrimeraSalida t).map (· + 1)

/-- The outer `while i < len(registros)` loop of `calcular_horas_dia`
(`utils/calculos.py` lines 81–107): at an `ENTRADA` at position `i`, find the
first `SALIDA` at position `i+1+k`, emit the pair and resume at `i+1+k+1`
(the source sets `i = j` and then `i += 1`); otherwise advance by one. -/
def emparejarDesde (regs : List Registro) (i : ℕ) : List (Tm × Tm) :=
  if h : i < regs.length then
    let r := regs[i]
    if r.tipo = TipoRegistro.ENTRADA then
      match offsetPrimeraSalida (regs.drop (i + 1)) with
      | some k =>
        match (regs.drop (i + 1)).get? k with
        | some s => (r.hora, s.hora) :: emparejarDesde regs (i + 1 + k + 1)
        | none => []
      | none => emparejarDesde regs (i + 1)
    else emparejarDesde regs (i + 1)
  else []
termination_by regs.length - i
decreasing_by
  all_goals omega

/-- Spec-side helper: the first `SALIDA` of a list together with the
remaining suffix after it. -/
def buscarPrimeraSalida : List Registro → Option (Registro × List Registro)
  | [] => none
  | s :: t =>
    if s.tipo = TipoRegistro.SALIDA then some (s, t) else buscarPrimeraSalida t

theorem buscarPrimeraSalida_length :
    ∀ {l : List Registro} {s : Registro} {resto : List Registro},
      buscarPrimeraSalida l = some (s, resto) → resto.length < l.length := by
  intro l
  induction l with
  | nil => intro s resto h; simp [buscarPrimeraSalida] at h
  | cons a t ih =>
    intro s resto h
    by_cases ha : a.tipo = TipoRegistro.SALIDA
    · simp only [buscarPrimeraSalida, if_pos ha, Option.some.injEq, Prod.mk.injEq] at h
      obtain ⟨-, rfl⟩ := h
      simp
    · simp only [buscarPrimeraSalida, if_neg ha] at h
      exact Nat.lt_succ_of_lt (ih h)

/-- The pairing rule exactly as the claim states it: pair each `ENTRY` with
the first following `EXIT` and resume after it; orphan `ENTRY`s and orphan
`EXIT`s contribute no interval. -/
def emparejarSpec : List Registro → List (Tm × Tm)
  | [] => []
  | r :: rest =>
    if r.tipo = TipoRegistro.ENTRADA then
      match h : buscarPrimeraSalida rest with
      | some (s, resto) => (r.hora, s.hora) :: emparejarSpec resto
      | none => emparejarSpec rest
    else emparejarSpec rest
termination_by l => l.length
decreasing_by
  · exact Nat.lt_succ_of_lt (buscarPrimeraSalida_length h)
  · simp
  · simp

theorem buscarPrimeraSalida_eq_offset (l : List Registro) :
    buscarPrimeraSalida l = (offsetPrimeraSalida l).bind
      (fun k => (l.get? k).map (fun s => (s, l.drop (k + 1)))) := by
  induction l with
  | nil => rfl
  | cons a t ih =>
    by_cases ha : a.tipo = TipoRegistro.SALIDA
    · simp [buscarPrimeraSalida, offsetPrimeraSalida, ha]
    · simp only [buscarPrimeraSalida, offsetPrimeraSalida, if_neg ha]
      rw [ih]
      cases hk : offsetPrimeraSalida t with
      | none => simp
      | some k => simp [List.drop_succ_cons]

theorem emparejarSpec_cons_entrada_some {r : Registro} {rest : List Registro}
    {s : Registro} {resto : List Registro}
    (hr : r.tipo = TipoRegistro.ENTRADA)
    (hb : buscarPrimeraSalida rest = some (s, resto)) :
    emparejarSpec (r :: rest) = (r.hora, s.hora) :: emparejarSpec resto := by
  rw [emparejarSpec]
  rw [if_pos hr]
  split
  next s' resto' h =>
    rw [hb] at h
    simp only [Option.some.injEq, Prod.mk.injEq] at h
    obtain ⟨hss, hrr⟩ := h
    subst hss
    subst hrr
    rfl
  next h =>
    rw [hb] at h
    simp at h

theorem emparejarSpec_cons_entrada_none {r : Registro} {rest : List Registro}
    (hr : r.tipo = TipoRegistro.ENTRADA)
    (hb : buscarPrimeraSalida rest = none) :
    emparejarSpec (r :: rest) = emparejarSpec rest := by
  rw [emparejarSpec]
  rw [if_pos hr]
  split
  next s' resto' h =>
    rw [hb] at h
    simp at h
  next h =>
    rfl

theorem emparejarSpec_cons_no_entrada {r : Registro} {rest : List Registro}
    (hr : ¬ r.tipo = TipoRegistro.ENTRADA) :
    emparejarSpec (r :: rest) = emparejarSpec rest := by
  rw [emparejarSpec]
  rw [if_neg hr]

theorem offsetPrimeraSalida_lt_length :
    ∀ {l : List Registro} {k : ℕ}, offsetPrimeraSalida l = some k → k < l.length := by
  intro l
  induction l with
  | nil => intro k h; simp [offsetPrimeraSalida] at h
  | cons a t ih =>
    intro k h
    by_cases ha : a.tipo = TipoRegistro.SALIDA
    · simp only [offsetPrimeraSalida, if_pos ha, Option.some.injEq] at h
      simp only [List.length_cons]
      omega
    · simp only [offsetPrimeraSalida, if_neg ha] at h
      cases hk : offsetPrimeraSalida t with
      | none => rw [hk] at h; simp at h
      | some j =>
        rw [hk] at h
        simp only [Option.map_some', Option.some.injEq] at h
        have := ih hk
        simp only [List.length_cons]
        omega

theorem emparejarDesde_eq_spec_aux :
    ∀ (n : ℕ) (regs : List Registro) (i : ℕ),
      regs.length - i ≤ n → emparejarDesde regs i = emparejarSpec (regs.drop i) := by
  intro n
  induction n with
  | zero =>
    intro regs i hle
    have hge : ¬ i < regs.length := by omega
    unfold emparejarDesde
    rw [dif_neg hge, List.drop_eq_nil_of_le (by omega : regs.length ≤ i)]
    simp [emparejarSpec]
  | succ n ih =>
    intro regs i hle
    by_cases h : i < regs.length
    · unfold emparejarDesde
      rw [dif_pos h, List.drop_eq_getElem_cons h]
      by_cases htipo : regs[i].tipo = TipoRegistro.ENTRADA
      · simp only [if_pos htipo]
        cases hk : offsetPrimeraSalida (regs.drop (i + 1)) with
        | none =>
          have hbs : buscarPrimeraSalida (regs.drop (i + 1)) = none := by
            rw [buscarPrimeraSalida_eq_offset, hk]
            rfl
          rw [emparejarSpec_cons_entrada_none htipo hbs]
          exact ih regs (i + 1) (by omega)
        | some k =>
          have hklt : k < (regs.drop (i + 1)).length := offsetPrimeraSalida_lt_length hk
          have hs : (regs.drop (i + 1)).get? k
              = some ((regs.drop (i + 1)).get ⟨k, hklt⟩) := List.get?_eq_get hklt
          have hdd : (regs.drop (i + 1)).drop (k + 1) = regs.drop (i + 1 + k + 1) := by
            rw [List.drop_drop]
            rfl
          have hbs : buscarPrimeraSalida (regs.drop (i + 1))
              = some ((regs.drop (i + 1)).get ⟨k, hklt⟩, (regs.drop (i + 1)).drop (k + 1)) := by
            rw [buscarPrimeraSalida_eq_offset, hk]
            simp only [Option.some_bind, hs, Option.map_some']
          simp only [hs]
          rw [emparejarSpec_cons_entrada_some htipo hbs]
          rw [ih regs (i + 1 + k + 1) (by omega), hdd]
      · simp only [if_neg htipo]
        rw [emparejarSpec_cons_no_entrada htipo]
        exact ih regs (i + 1) (by omega)
    · unfold emparejarDesde
      rw [dif_neg h, List.drop_eq_nil_of_le (by omega : regs.length ≤ i)]
      simp [emparejarSpec]

theorem emparejarDesde_eq_spec (regs : List Registro) :
    emparejarDesde regs 0 = emparejarSpec regs := by
  have := emparejarDesde_eq_spec_aux regs.length regs 0 (by omega)
  simpa using this

/-! ## Civil dates and weekday (`utils/fechas.py`, Python `date`) -/

/-- A civil calendar date. -/
structure Fecha where
  year : ℤ
  month : ℤ
  day : ℤ
deriving DecidableEq, Repr

/-- Number of days from the civil epoch 1970-01-01 (standard civil-calendar
day-count; models Python `datetime.date`'s ordinal arithmetic). -/
def Fecha.toEpochDays (d : Fecha) : ℤ :=
  let y := d.year - (if d.month ≤ 2 then 1 else 0)
  let era := (if 0 ≤ y then y else y - 399) / 400
  let yoe := y - era * 400
  let doy := (153 * (d.month + (if 2 < d.month then -3 else 9)) + 2) / 5 + d.day - 1
  let doe := yoe * 365 + yoe / 4 - yoe / 100 + doy
  era * 146097 + doe - 719468

/-- Python `date.weekday()`: Monday = 0 … Sunday = 6
(1970-01-01 was a Thursday, weekday 3). -/
def Fecha.weekday (d : Fecha) : ℤ := (d.toEpochDays + 3) % 7

/-- Days in a month of the proleptic Gregorian calendar. -/
def diasEnMes (y m : ℤ) : ℤ :=
  if m = 2 then (if (y % 4 = 0 ∧ y % 100 ≠ 0) ∨ y % 400 = 0 then 29 else 28)
  else if m = 4 ∨ m = 6 ∨ m = 9 ∨ m = 11 then 30
  else 31

/-- Python `date(y, m, d)`: validates its arguments and raises `ValueError`
on an invalid month or day (modelled by `none`). -/
def mkDate (y m d : ℤ) : Option Fecha :=
  if 1 ≤ m ∧ m ≤ 12 ∧ 1 ≤ d ∧ d ≤ diasEnMes y m then some ⟨y, m, d⟩ else none

/-- `date - timedelta(days=1)`: the previous civil day. -/
def fechaPrevDay (d : Fecha) : Fecha :=
  if 1 < d.day then ⟨d.year, d.month, d.day - 1⟩
  else if 1 < d.month then ⟨d.year, d.month - 1, diasEnMes d.year (d.month - 1)⟩
  else ⟨d.year - 1, 12, 31⟩

/-- `get_quincena_range` from `utils/fechas.py`: `quincena == 1` gives days
1–15; ANY other value falls into the `else` branch and gives day 16 to the
end of the month.  `none` models `ValueError` escaping from Python's `date`
constructor. -/
def get_quincena_range (anio mes quincena : ℤ) : Option (Fecha × Fecha) :=
  if quincena = 1 then do
    let inicio ← mkDate anio mes 1
    let fin ← mkDate anio mes 15
    pure (inicio, fin)
  else do
    let inicio ← mkDate anio mes 16
    let primeroSiguiente ←
      if mes = 12 then mkDate (anio + 1) 1 1 else mkDate anio (mes + 1) 1
    pure (inicio, fechaPrevDay primeroSiguiente)

/-! ## Day classifier `calcular_horas_dia` (`utils/calculos.py` lines 63–136) -/

/-- One reconstructed work interval, as built by `calcular_horas_dia`. -/
structure Intervalo where
  entrada : Tm
  salida : Tm
  horas : ℚ
  horasNocturnas : ℚ
  horasDiurnas : ℚ
deriving DecidableEq, Repr

/-- The day-totals dictionary returned by `calcular_horas_dia`. -/
structure DiaHoras where
  esDomingo : Bool
  horasTrabajadas : ℚ
  horasOrdinarias : ℚ
  horasExtraDiurna : ℚ
  horasExtraNocturna : ℚ
  horasRecargoNocturno : ℚ
  horasDominical : ℚ
  intervalos : List Intervalo
  totalIntervalos : ℕ
deriving DecidableEq, Repr

/-- Lines 92–101 of `utils/calculos.py`: the interval record built for one
(entrada, salida) pair. -/
def intervaloDe (par : Tm × Tm) : Intervalo :=
  let horas := calcular_diferencia_horas par.1 par.2
  let horasNocturnas := calcular_horas_nocturnas par.1 par.2
  { entrada := par.1, salida := par.2, horas := horas,
    horasNocturnas := horasNocturnas,
    horasDiurnas := round2 (horas - horasNocturnas) }

/-- The `intervalos` list accumulated by the pairing loop. -/
def intervalosDia (registros : List Registro) : List Intervalo :=
  (emparejarDesde registros 0).map intervaloDe

/-- The loop accumulator `horas_total` (sum of the emitted interval hours). -/
def horasTotalDia (registros : List Registro) : ℚ :=
  ((intervalosDia registros).map Intervalo.horas).sum

/-- The loop accumulator `horas_nocturnas_total`. -/
def horasNocturnasTotalDia (registros : List Registro) : ℚ :=
  ((intervalosDia registros).map Intervalo.horasNocturnas).sum

/-- `horas_extra = max(0, horas_total - 8)`. -/
def horasExtraDia (registros : List Registro) : ℚ :=
  max 0 (horasTotalDia registros - 8)

/-- Lines 116–123 of `utils/calculos.py`: distribute the overtime between
diurnal and nocturnal proportionally to the nocturnal share of the day.
Returns `(horas_extra_diurna, horas_extra_nocturna)`. -/
def extrasDia (registros : List Registro) : ℚ × ℚ :=
  if 0 < horasExtraDia registros then
    let proporcionNocturna :=
      if 0 < horasTotalDia registros then
        horasNocturnasTotalDia registros / horasTotalDia registros
      else 0
    let horasExtraNocturna := round2 (horasExtraDia registros * proporcionNocturna)
    (round2 (horasExtraDia registros - horasExtraNocturna), horasExtraNocturna)
  else (0, 0)

/-- `calcular_horas_dia`: pair the day's events into intervals, total the
hours, and split them into ordinary / overtime-diurnal / overtime-nocturnal
/ night-surcharge / Sunday categories. -/
def calcular_horas_dia (registros : List Registro) (fecha : Fecha) : DiaHoras :=
  let esDomingo := fecha.weekday == 6
  { esDomingo := esDomingo,
    horasTrabajadas := round2 (horasTotalDia registros),
    horasOrdinarias := round2 (min (horasTotalDia registros) 8),
    horasExtraDiurna := (extrasDia registros).1,
    horasExtraNocturna := (extrasDia registros).2,
    horasRecargoNocturno := round2 (horasNocturnasTotalDia registros),
    horasDominical := if esDomingo then round2 (horasTotalDia registros) else 0,
    intervalos := intervalosDia registros,
    totalIntervalos := (intervalosDia registros).length }

/-! ## Characterization helpers for the time arithmetic -/

theorem round2_intCast (k : ℤ) : round2 (k : ℚ) = k :=
  round2_eq_self ⟨k * 100, by push_cast; ring⟩

/-- Length of the (midnight-normalized) interval in minutes. -/
def minutosIntervalo (inicio fin : Tm) : ℤ :=
  (fin.toMin : ℤ) + (if fin.toMin < inicio.toMin then 1440 else 0) - (inicio.toMin : ℤ)

theorem calcular_diferencia_horas_eq (inicio fin : Tm) :
    calcular_diferencia_horas inicio fin
      = round2 ((minutosIntervalo inicio fin : ℚ) / 60) := by
  unfold calcular_diferencia_horas minutosIntervalo
  by_cases hc : fin.toMin < inicio.toMin
  · simp only [if_pos hc]
    congr 1
    push_cast
    ring
  · simp only [if_neg hc]
    congr 1
    push_cast
    ring

theorem calcular_horas_nocturnas_eq (entrada salida : Tm) :
    calcular_horas_nocturnas entrada salida
      = round2 ((minutosNocturnosSpec entrada salida : ℚ) / 60) := by
  simp only [calcular_horas_nocturnas, minutosNocturnosSpec]
  rw [noct_foldl_count]
  rw [zero_add]

/-! ## Facts about the day classifier -/

theorem centi_sum_of_mem {l : List ℚ} (h : ∀ x ∈ l, Centi x) : Centi l.sum := by
  induction l with
  | nil => simpa using centi_zero
  | cons a t ih =>
    simp only [List.sum_cons]
    exact centi_add (h a (by simp)) (ih fun x hx => h x (by simp [hx]))

theorem centi_horasTotalDia (registros : List Registro) :
    Centi (horasTotalDia registros) := by
  apply centi_sum_of_mem
  intro x hx
  simp only [intervalosDia, List.map_map, List.mem_map] at hx
  obtain ⟨par, -, rfl⟩ := hx
  simp only [Function.comp_apply, intervaloDe]
  rw [calcular_diferencia_horas_eq]
  exact round2_centi _

theorem centi_horasNocturnasTotalDia (registros : List Registro) :
    Centi (horasNocturnasTotalDia registros) := by
  apply centi_sum_of_mem
  intro x hx
  simp only [horasNocturnasTotalDia, intervalosDia, List.map_map, List.mem_map] at hx
  obtain ⟨par, -, rfl⟩ := hx
  simp only [Function.comp_apply, intervaloDe]
  rw [calcular_horas_nocturnas_eq]
  exact round2_centi _

theorem horasTrabajadas_eq (registros : List Registro) (fecha : Fecha) :
    (calcular_horas_dia registros fecha).horasTrabajadas = horasTotalDia registros := by
  simp only [calcular_horas_dia]
  exact round2_eq_self (centi_horasTotalDia registros)

theorem horasRecargoNocturno_eq (registros : List Registro) (fecha : Fecha) :
    (calcular_horas_dia registros fecha).horasRecargoNocturno
      = horasNocturnasTotalDia registros := by
  simp only [calcular_horas_dia]
  exact round2_eq_self (centi_horasNocturnasTotalDia registros)

theorem horasOrdinarias_eq (registros : List Registro) (fecha : Fecha) :
    (calcular_horas_dia registros fecha).horasOrdinarias
      = min (horasTotalDia registros) 8 := by
  simp only [calcular_horas_dia]
  exact round2_eq_self (centi_min (centi_horasTotalDia registros) (centi_ofNat 8))

theorem extrasDia_of_le {registros : List Registro}
    (h : horasTotalDia registros ≤ 8) : extrasDia registros = (0, 0) := by
  unfold extrasDia
  rw [if_neg]
  unfold horasExtraDia
  simp only [not_lt, max_le_iff]
  constructor
  · exact le_refl 0
  · linarith

theorem extrasDia_of_lt {registros : List Registro}
    (h : 8 < horasTotalDia registros) :
    (extrasDia registros).2
        = round2 ((horasTotalDia registros - 8)
            * (horasNocturnasTotalDia registros / horasTotalDia registros))
      ∧ (extrasDia registros).1
        = (horasTotalDia registros - 8) - (extrasDia registros).2 := by
  have hmax : horasExtraDia registros = horasTotalDia registros - 8 := by
    unfold horasExtraDia
    rw [max_eq_right (by linarith)]
  have hpos : 0 < horasExtraDia registros := by rw [hmax]; linarith
  have hSpos : 0 < horasTotalDia registros := by linarith
  unfold extrasDia
  rw [if_pos hpos, if_pos hSpos, hmax]
  refine ⟨rfl, ?_⟩
  exact round2_eq_self (centi_sub
    (centi_sub (centi_horasTotalDia registros) (centi_ofNat 8))
    (round2_centi _))

/-! ## Monetary valuation (`calcular_valor_horas`, `utils/calculos.py` 139–168)
and the per-employee slice of `resumen_nomina_quincenal`
(`tools/nomina.py` lines 96–153) -/

/-- The configuration rows read from the `configuracion` table; a missing
key falls back to the source's default. -/
structure ConfigNomina where
  valorHoraOrdinaria : Option ℚ
  valorHoraExtraDiurna : Option ℚ
  valorHoraExtraNocturna : Option ℚ

/-- The hour-totals dictionary handed to `calcular_valor_horas`. -/
structure HorasValoracion where
  horasOrdinarias : ℚ
  horasExtraDiurna : ℚ
  horasExtraNocturna : ℚ
  horasRecargoNocturno : ℚ
  horasDominical : ℚ
  esDomingo : Bool

/-- The `valores` dictionary produced by `calcular_valor_horas`. -/
structure ValoresNomina where
  ordinarias : ℚ
  extraDiurna : ℚ
  extraNocturna : ℚ
  recargoNocturno : ℚ
  dominical : ℚ
  total : ℚ

/-- `calcular_valor_horas`: hour totals times rates (defaults
`5833.33`, `×1.25`, `×1.75`); the `dominical` line is paid only when the
`es_domingo` flag of the hours dictionary is set (factor `×1.75`), and the
night surcharge uses factor `0.35`. -/
def calcular_valor_horas (horas : HorasValoracion) (config : ConfigNomina) : ValoresNomina :=
  let valorOrdinaria := config.valorHoraOrdinaria.getD (583333 / 100)
  let valorExtraDiurna := config.valorHoraExtraDiurna.getD (valorOrdinaria * (5/4))
  let valorExtraNocturna := config.valorHoraExtraNocturna.getD (valorOrdinaria * (7/4))
  let ordinarias := round2 (horas.horasOrdinarias * valorOrdinaria)
  let extraDiurna := round2 (horas.horasExtraDiurna * valorExtraDiurna)
  let extraNocturna := round2 (horas.horasExtraNocturna * valorExtraNocturna)
  let recargoNocturno := round2 (horas.horasRecargoNocturno * valorOrdinaria * (35/100))
  let dominical :=
    if horas.esDomingo then round2 (horas.horasDominical * valorOrdinaria * (7/4)) else 0
  { ordinarias := ordinarias, extraDiurna := extraDiurna,
    extraNocturna := extraNocturna, recargoNocturno := recargoNocturno,
    dominical := dominical,
    total := ordinarias + extraDiurna + extraNocturna + recargoNocturno + dominical }

/-- The per-employee accumulator of `resumen_nomina_quincenal`. -/
structure HorasAcumuladas where
  ordinarias : ℚ
  extraDiurna : ℚ
  extraNocturna : ℚ
  recargoNocturno : ℚ
  dominical : ℚ

/-- `resumen_nomina_quincenal` lines 96–130: fold the employee's dates,
adding each day's category totals; Sunday hours are accumulated only when
the employee has `liquida_dominical`; every accumulated total is rounded at
the end. -/
def acumularHorasEmpleado (liquidaDominical : Bool)
    (dias : List (Fecha × List Registro)) : HorasAcumuladas :=
  let acc := dias.foldl (fun (acc : HorasAcumuladas) dia =>
    let horasDia := calcular_horas_dia dia.2 dia.1
    { ordinarias := acc.ordinarias + horasDia.horasOrdinarias,
      extraDiurna := acc.extraDiurna + horasDia.horasExtraDiurna,
      extraNocturna := acc.extraNocturna + horasDia.horasExtraNocturna,
      recargoNocturno := acc.recargoNocturno + horasDia.horasRecargoNocturno,
      dominical := acc.dominical
        + (if liquidaDominical then horasDia.horasDominical else 0) })
    (⟨0, 0, 0, 0, 0⟩ : HorasAcumuladas)
  { ordinarias := round2 acc.ordinarias,
    extraDiurna := round2 acc.extraDiurna,
    extraNocturna := round2 acc.extraNocturna,
    recargoNocturno := round2 acc.recargoNocturno,
    dominical := round2 acc.dominical }

/-- `resumen_nomina_quincenal` lines 132–141: the aggregated hours are
passed to `calcular_valor_horas` with the literal `'es_domingo': False`
(source comment `# Se calcula por día`). -/
def valoresEmpleadoNomina (liquidaDominical : Bool)
    (dias : List (Fecha × List Registro)) (config : ConfigNomina) : ValoresNomina :=
  let horas := acumularHorasEmpleado liquidaDominical dias
  calcular_valor_horas
    { horasOrdinarias := horas.ordinarias,
      horasExtraDiurna := horas.extraDiurna,
      horasExtraNocturna := horas.extraNocturna,
      horasRecargoNocturno := horas.recargoNocturno,
      horasDominical := horas.dominical,
      esDomingo := false } config

/-! ## JSON-RPC dispatcher, POST branch of `handle_streamable_http`
(`server.py` lines 501–604).  Text is modelled as `List Char` so that all
operations are kernel-computable. -/

/-- Text (SQL / JSON strings) as a list of characters. -/
abbrev Cadena := List Char

/-- A JSON-RPC id: the dialect accepts strings and numbers. -/
inductive JId where
  | str (s : Cadena)
  | num (n : ℤ)
deriving DecidableEq

/-- The result payloads the POST dispatcher can produce. -/
inductive RpcResult where
  | emptyObj
  | initInfo
  | toolsList
  | content (text : Cadena)
deriving DecidableEq

/-- Result or error envelope. -/
inductive RpcOutcome where
  | result (r : RpcResult)
  | error (code : ℤ) (msg : Cadena)
deriving DecidableEq

/-- A JSON-RPC response as serialized by the dispatcher.
`idField = none` means the JSON object has NO `id` member at all;
`idField = some none` means it has `"id": null`;
`idField = some (some k)` means `"id": k`. -/
structure RpcResponse where
  idField : Option (Option JId)
  outcome : RpcOutcome
deriving DecidableEq

/-- The keys of `TOOL_REGISTRY` (`server.py` lines 257–321). -/
def registryToolNames : List Cadena :=
  ["consultar_empleados".toList, "buscar_empleado".toList,
   "consultar_registros_fecha".toList, "consultar_registros_rango".toList,
   "obtener_ultimo_registro".toList, "empleados_sin_salida".toList,
   "calcular_horas_trabajadas_dia".toList, "reporte_horas_semanal".toList,
   "reporte_horas_mensual".toList, "estadisticas_asistencia".toList,
   "obtener_configuracion".toList, "resumen_nomina_quincenal".toList]

/-- `method_name.startswith("notifications/")`. -/
def esNotificacion (method : Cadena) : Bool :=
  List.isPrefixOf "notifications/".toList method

/-- The POST branch of `handle_streamable_http`.  The tool execution
(`await TOOL_REGISTRY[tool_name](tool_args)`) is abstracted as `callTool`,
whose `Except.error` case models a Python exception caught by the
`except` block (code −32000).  The response id logic is translated
literally: notifications answer with the request id when present and with
no id member otherwise; every other branch serializes `"id": msg_id`,
which is `null` when the request had no id. -/
def handle_streamable_http_post {α : Type} (callTool : Cadena → α → Except Cadena Cadena)
    (method : Cadena) (msgId : Option JId) (toolName : Option Cadena) (toolArgs : α) :
    RpcResponse :=
  if esNotificacion method then
    match msgId with
    | some k => { idField := some (some k), outcome := .result .emptyObj }
    | none => { idField := none, outcome := .result .emptyObj }
  else if method = "initialize".toList then
    { idField := some msgId, outcome := .result .initInfo }
  else if method = "tools/list".toList then
    { idField := some msgId, outcome := .result .toolsList }
  else if method = "tools/call".toList then
    let name := toolName.getD []
    if name ∈ registryToolNames then
      match callTool name toolArgs with
      | .ok text => { idField := some msgId, outcome := .result (.content text) }
      | .error e => { idField := some msgId, outcome := .error (-32000) e }
    else
      { idField := some msgId, outcome := .error (-32601) ("Tool not found: ".toList ++ name) }
  else
    { idField := some msgId, outcome := .error (-32601) ("Method not found: ".toList ++ method) }

/-! ## Employee search `buscar_empleado` (`tools/empleados.py` lines 84–133)
with executable semantics for `ILIKE`, `ORDER BY` and `LIMIT`. -/

/-- SQL `lower` (ASCII case folding). -/
def lowerCadena (c : Cadena) : Cadena := c.map Char.toLower

/-- PostgreSQL `LIKE` pattern matching over character lists: `%` matches
any sequence, `_` matches exactly one character, the default escape
character (backslash) makes the following pattern character literal (so
an escaped `%`, `_` or backslash matches that character itself), and any
other character matches itself.  A pattern ending in a bare escape
character raises an error in PostgreSQL; it is modelled here as matching
nothing, and every theorem below keeps its hypotheses inside the
escape-free fragment. -/
def likeMatch : Cadena → Cadena → Bool
  | [], s => s.isEmpty
  | c :: p, s =>
    if c = '\\' then
      match p, s with
      | [], _ => false
      | _ :: _, [] => false
      | e :: p', d :: s' => (e == d) && likeMatch p' s'
    else if c = '%' then s.tails.any (fun t => likeMatch p t)
    else
      match s with
      | [] => false
      | d :: s' => (c == '_' || c == d) && likeMatch p s'

/-- SQL `s ILIKE pat`: case-insensitive `LIKE`. -/
def ilike (s pat : Cadena) : Bool := likeMatch (lowerCadena pat) (lowerCadena s)

/-- An `empleados` table row (the columns selected by `buscar_empleado`). -/
structure Empleado where
  id : ℕ
  codigo : Cadena
  nombre : Cadena
  apellido : Cadena
  cargo : Cadena
  departamento : Cadena
  puntoTrabajo : Cadena
  activo : Bool
deriving DecidableEq

/-- The projected row in the tool's `empleados` output list. -/
structure EmpleadoOut where
  id : ℕ
  codigoEmpleado : Cadena
  nombreCompleto : Cadena
  activo : Bool
deriving DecidableEq

/-- The JSON object returned by `buscar_empleado`. -/
structure BuscarResultado where
  terminoBusqueda : Cadena
  resultados : ℕ
  empleados : List EmpleadoOut
deriving DecidableEq

/-- `ORDER BY CASE WHEN codigo_empleado ILIKE :termino THEN 0 ELSE 1 END`. -/
def claveBusqueda (termino : Cadena) (e : Empleado) : ℕ :=
  if ilike e.codigo termino then 0 else 1

/-- Character-list lexicographic strict order (SQL text collation model). -/
def ltChars : Cadena → Cadena → Bool
  | [], [] => false
  | [], _ :: _ => true
  | _ :: _, [] => false
  | a :: as, b :: bs => if a < b then true else if b < a then false else ltChars as bs

/-- The `ORDER BY (clave, apellido, nombre)` comparator. -/
def leEmpleado (termino : Cadena) (a b : Empleado) : Bool :=
  if claveBusqueda termino a < claveBusqueda termino b then true
  else if claveBusqueda termino b < claveBusqueda termino a then false
  else if ltChars a.apellido b.apellido then true
  else if ltChars b.apellido a.apellido then false
  else if ltChars a.nombre b.nombre then true
  else if ltChars b.nombre a.nombre then false
  else true

/-- Insert into a sorted list (deterministic model of SQL `ORDER BY`). -/
def insertarOrdenado {α : Type} (le : α → α → Bool) (a : α) : List α → List α
  | [] => [a]
  | b :: l => if le a b then a :: b :: l else b :: insertarOrdenado le a l

/-- Insertion sort. -/
def ordenarPor {α : Type} (le : α → α → Bool) : List α → List α
  | [] => []
  | a :: l => insertarOrdenado le a (ordenarPor le l)

/-- `buscar_empleado`: filter rows whose code, first or last name matches
`'%' || :termino || '%'` case-insensitively, order exact code matches
first (then by last and first name), truncate to 20 rows (`LIMIT 20`) and
project; `resultados` is `len(empleados)`. -/
def buscar_empleado (db : List Empleado) (termino : Cadena) : BuscarResultado :=
  let patron := '%' :: termino ++ ['%']
  let filtrados := db.filter (fun e =>
    ilike e.codigo patron || ilike e.nombre patron || ilike e.apellido patron)
  let ordenados := ordenarPor (leEmpleado termino) filtrados
  let limitados := ordenados.take 20
  let empleados := limitados.map (fun e =>
    { id := e.id, codigoEmpleado := e.codigo,
      nombreCompleto := e.nombre ++ ' ' :: e.apellido, activo := e.activo })
  { terminoBusqueda := termino, resultados := empleados.length, empleados := empleados }

/-! ### Order facts for the search results -/

theorem mem_insertarOrdenado {α : Type} (le : α → α → Bool) (a x : α) :
    ∀ l : List α, x ∈ insertarOrdenado le a l ↔ x = a ∨ x ∈ l := by
  intro l
  induction l with
  | nil => simp [insertarOrdenado]
  | cons b t ih =>
    unfold insertarOrdenado
    by_cases hle : le a b = true
    · simp [hle]
    · rw [if_neg hle]
      simp only [List.mem_cons, ih]
      tauto

theorem pairwise_insertarOrdenado {α : Type} (le : α → α → Bool) (key : α → ℕ)
    (h₁ : ∀ a b, le a b = true → key a ≤ key b)
    (h₂ : ∀ a b, le a b = false → key b ≤ key a)
    (a : α) :
    ∀ l : List α, l.Pairwise (fun x y => key x ≤ key y) →
      (insertarOrdenado le a l).Pairwise (fun x y => key x ≤ key y) := by
  intro l
  induction l with
  | nil => intro _; simp [insertarOrdenado]
  | cons b t ih =>
    intro hl
    rw [List.pairwise_cons] at hl
    obtain ⟨hb, ht⟩ := hl
    unfold insertarOrdenado
    by_cases hle : le a b = true
    · rw [if_pos hle]
      rw [List.pairwise_cons]
      refine ⟨?_, ?_⟩
      · intro x hx
        rcases List.mem_cons.mp hx with rfl | hx
        · exact h₁ a x hle
        · exact le_trans (h₁ a b hle) (hb x hx)
      · rw [List.pairwise_cons]
        exact ⟨hb, ht⟩
    · rw [if_neg hle]
      rw [List.pairwise_cons]
      refine ⟨?_, ih ht⟩
      intro x hx
      rcases (mem_insertarOrdenado le a x t).mp hx with rfl | hx
      · exact h₂ _ _ (by simpa using hle)
      · exact hb x hx

theorem pairwise_ordenarPor {α : Type} (le : α → α → Bool) (key : α → ℕ)
    (h₁ : ∀ a b, le a b = true → key a ≤ key b)
    (h₂ : ∀ a b, le a b = false → key b ≤ key a) :
    ∀ l : List α, (ordenarPor le l).Pairwise (fun x y => key x ≤ key y) := by
  intro l
  induction l with
  | nil => simp [ordenarPor]
  | cons a t ih =>
    unfold ordenarPor
    exact pairwise_insertarOrdenado le key h₁ h₂ a _ ih

/-- A `LIKE` pattern free of wildcards and of the escape character matches
exactly itself. -/
theorem likeMatch_eq_iff :
    ∀ (p s : Cadena), (∀ c ∈ p, c ≠ '%' ∧ c ≠ '_' ∧ c ≠ '\\') →
      (likeMatch p s = true ↔ p = s) := by
  intro p
  induction p with
  | nil =>
    intro s _
    cases s with
    | nil => simp [likeMatch]
    | cons d s' => simp [likeMatch]
  | cons c p' ih =>
    intro s hw
    have hc : c ≠ '%' ∧ c ≠ '_' ∧ c ≠ '\\' := hw c (by simp)
    unfold likeMatch
    rw [if_neg hc.2.2, if_neg hc.1]
    cases s with
    | nil => simp
    | cons d s' =>
      have hcd : (c == '_') = false := by
        simp only [beq_eq_false_iff_ne]
        exact hc.2.1
      simp only [hcd, Bool.false_or, Bool.and_eq_true, beq_iff_eq, List.cons.injEq]
      rw [ih s' (fun x hx => hw x (by simp [hx]))]

theorem leEmpleado_key_le {termino : Cadena} {a b : Empleado}
    (h : leEmpleado termino a b = true) :
    claveBusqueda termino a ≤ claveBusqueda termino b := by
  unfold leEmpleado at h
  split_ifs at h with h1 h2 <;> omega

theorem leEmpleado_key_ge {termino : Cadena} {a b : Empleado}
    (h : leEmpleado termino a b = false) :
    claveBusqueda termino b ≤ claveBusqueda termino a := by
  unfold leEmpleado at h
  split_ifs at h with h1 h2 <;> omega

/-- With a term free of wildcards and escapes, `codigo ILIKE :termino` is
exactly case-insensitive equality of code and term. -/
theorem ilike_eq_iff {termino codigo : Cadena}
    (hw : ∀ c ∈ lowerCadena termino, c ≠ '%' ∧ c ≠ '_' ∧ c ≠ '\\') :
    ilike codigo termino = true ↔ lowerCadena codigo = lowerCadena termino := by
  unfold ilike
  rw [likeMatch_eq_iff _ _ hw]
  exact eq_comm

theorem claveBusqueda_eq_zero_iff {termino : Cadena} {e : Empleado}
    (hw : ∀ c ∈ lowerCadena termino, c ≠ '%' ∧ c ≠ '_' ∧ c ≠ '\\') :
    claveBusqueda termino e = 0 ↔ lowerCadena e.codigo = lowerCadena termino := by
  unfold claveBusqueda
  rw [← ilike_eq_iff hw]
  by_cases hi : ilike e.codigo termino = true
  · simp [hi]
  · simp [hi]

/-! ## `obtener_ultimo_registro` (`tools/registros.py` lines 168–215) -/

/-- A `registros` row joined for `obtener_ultimo_registro`. -/
structure RegistroRow where
  fecha : Fecha
  hora : Tm
  tipo : TipoRegistro
deriving DecidableEq

/-- `ORDER BY fecha_registro DESC, hora_registro DESC`. -/
def leRegistroDesc (a b : RegistroRow) : Bool :=
  if b.fecha.toEpochDays < a.fecha.toEpochDays then true
  else if a.fecha.toEpochDays < b.fecha.toEpochDays then false
  else if b.hora.toMin < a.hora.toMin then true
  else if a.hora.toMin < b.hora.toMin then false
  else true

/-- The `LIMIT 1` query of `obtener_ultimo_registro` (`execute_one`):
the employee's most recent record, `none` when there is no row. -/
def ultimoRegistroDe (regs : List RegistroRow) : Option RegistroRow :=
  (ordenarPor leRegistroDesc regs).head?

/-- The tool's response object; `siguienteAccion` carries the
`'ENTRADA'`/`'SALIDA'` string. -/
structure UltimoRegistroResultado where
  ultimoRegistro : Option RegistroRow
  siguienteAccion : TipoRegistro
  mensaje : Option Cadena
deriving DecidableEq

/-- `obtener_ultimo_registro`: `siguiente_accion = 'SALIDA'` iff the last
record is an `ENTRADA`; with no records it returns a null `ultimo_registro`,
`siguiente_accion = 'ENTRADA'` and an explanatory message — no error. -/
def obtener_ultimo_registro (regs : List RegistroRow) : UltimoRegistroResultado :=
  match ultimoRegistroDe regs with
  | some r =>
    { ultimoRegistro := some r,
      siguienteAccion :=
        if r.tipo = TipoRegistro.ENTRADA then TipoRegistro.SALIDA else TipoRegistro.ENTRADA,
      mensaje := none }
  | none =>
    { ultimoRegistro := none,
      siguienteAccion := TipoRegistro.ENTRADA,
      mensaje := some "No hay registros para este empleado".toList }

/-! ## Remaining helper lemmas -/

theorem emparejarSpec_nil : emparejarSpec [] = [] := by
  unfold emparejarSpec
  rfl

theorem intervalosDia_par (e s : Tm) :
    intervalosDia [⟨TipoRegistro.ENTRADA, e⟩, ⟨TipoRegistro.SALIDA, s⟩]
      = [intervaloDe (e, s)] := by
  unfold intervalosDia
  rw [emparejarDesde_eq_spec]
  rw [emparejarSpec_cons_entrada_some rfl
    (show buscarPrimeraSalida [⟨TipoRegistro.SALIDA, s⟩]
        = some (⟨TipoRegistro.SALIDA, s⟩, []) from by
      unfold buscarPrimeraSalida
      simp)]
  rw [emparejarSpec_nil]
  rfl

theorem horasTotalDia_par (e s : Tm) :
    horasTotalDia [⟨TipoRegistro.ENTRADA, e⟩, ⟨TipoRegistro.SALIDA, s⟩]
      = calcular_diferencia_horas e s := by
  unfold horasTotalDia
  rw [intervalosDia_par]
  simp [intervaloDe]

/-- The category split adds back up to the day's total, exactly. -/
theorem suma_categorias (registros : List Registro) (fecha : Fecha) :
    (calcular_horas_dia registros fecha).horasOrdinarias
      + (calcular_horas_dia registros fecha).horasExtraDiurna
      + (calcular_horas_dia registros fecha).horasExtraNocturna
    = (calcular_horas_dia registros fecha).horasTrabajadas := by
  rw [horasTrabajadas_eq, horasOrdinarias_eq]
  have hd : (calcular_horas_dia registros fecha).horasExtraDiurna
      = (extrasDia registros).1 := rfl
  have hn : (calcular_horas_dia registros fecha).horasExtraNocturna
      = (extrasDia registros).2 := rfl
  rw [hd, hn]
  by_cases h8 : 8 < horasTotalDia registros
  · obtain ⟨h2, h1⟩ := extrasDia_of_lt h8
    rw [h1, h2, min_eq_right (le_of_lt h8)]
    ring
  · push_neg at h8
    rw [extrasDia_of_le h8]
    rw [min_eq_left h8]
    norm_num

/-! ## Claim theorems -/

/-- C1: the quincenal payroll summary is claimed to pay the monetary
line-item `dominical` as Sunday hours × ordinary rate × 1.75 for employees
with `liquida_dominical`.  The code CONTRADICTS this: because
`resumen_nomina_quincenal` hands `calcular_valor_horas` the literal
`'es_domingo': False`, the monetary `dominical` is 0 for EVERY employee and
every quincena — even though, as the concrete Sunday below shows, the
aggregated `dominical` HOURS are correctly 6 for an employee with
`liquida_dominical = true` who worked 10:00–16:00 on Sunday 2025-01-05. -/
theorem c1_dominical_monetario_cero :
    (∀ (liquidaDominical : Bool) (dias : List (Fecha × List Registro))
        (config : ConfigNomina),
      (valoresEmpleadoNomina liquidaDominical dias config).dominical = 0)
    ∧ (acumularHorasEmpleado true
        [(⟨2025, 1, 5⟩, [⟨TipoRegistro.ENTRADA, ⟨10, 0⟩⟩,
                         ⟨TipoRegistro.SALIDA, ⟨16, 0⟩⟩])]).dominical = 6
    ∧ (valoresEmpleadoNomina true
        [(⟨2025, 1, 5⟩, [⟨TipoRegistro.ENTRADA, ⟨10, 0⟩⟩,
                         ⟨TipoRegistro.SALIDA, ⟨16, 0⟩⟩])]
        ⟨none, none, none⟩).dominical = 0 := by
  have hcero : ∀ (liquidaDominical : Bool) (dias : List (Fecha × List Registro))
      (config : ConfigNomina),
      (valoresEmpleadoNomina liquidaDominical dias config).dominical = 0 := by
    intro liquida dias config
    simp [valoresEmpleadoNomina, calcular_valor_horas]
  have hseis : calcular_diferencia_horas ⟨10, 0⟩ ⟨16, 0⟩ = 6 := by
    rw [calcular_diferencia_horas_eq]
    rw [show minutosIntervalo ⟨10, 0⟩ ⟨16, 0⟩ = 360 from by decide]
    rw [show ((360 : ℤ) : ℚ) / 60 = ((6 : ℤ) : ℚ) from by norm_num]
    rw [round2_intCast]
    norm_num
  refine ⟨hcero, ?_, hcero true _ _⟩
  have hdom : (calcular_horas_dia
      [⟨TipoRegistro.ENTRADA, ⟨10, 0⟩⟩, ⟨TipoRegistro.SALIDA, ⟨16, 0⟩⟩]
      ⟨2025, 1, 5⟩).horasDominical = 6 := by
    simp only [calcular_horas_dia]
    rw [if_pos (by decide : ((⟨2025, 1, 5⟩ : Fecha).weekday == 6) = true)]
    rw [horasTotalDia_par, hseis]
    rw [show (6 : ℚ) = ((6 : ℤ) : ℚ) from by norm_num, round2_intCast]
  unfold acumularHorasEmpleado
  simp only [List.foldl_cons, List.foldl_nil, if_pos trivial, if_true]
  rw [hdom]
  rw [show (0 : ℚ) + 6 = ((6 : ℤ) : ℚ) from by norm_num, round2_intCast]
  norm_num

/-- C2: for every one-day event list the classifier's category split
satisfies `ordinary = min(hours_worked, 8)`; with
`overtime = max(0, hours_worked − 8)`, when `overtime > 0` and
`hours_worked > 0` the nocturnal overtime is
`overtime × (nocturnal_total / hours_worked)` (rounded to two decimals at
the JSON boundary, spec invariant I6) and the diurnal overtime is exactly
`overtime − overtime_nocturnal`, otherwise both are zero; the night
surcharge equals the summed nocturnal hours of all intervals regardless of
overtime; and the Sunday hours equal `hours_worked` exactly when the date's
weekday is Sunday, else 0. -/
theorem c2_desglose_categorias (registros : List Registro) (fecha : Fecha) :
    (calcular_horas_dia registros fecha).horasOrdinarias
        = min (calcular_horas_dia registros fecha).horasTrabajadas 8
    ∧ (if 0 < max 0 ((calcular_horas_dia registros fecha).horasTrabajadas - 8)
          ∧ 0 < (calcular_horas_dia registros fecha).horasTrabajadas then
        (calcular_horas_dia registros fecha).horasExtraNocturna
            = round2 (max 0 ((calcular_horas_dia registros fecha).horasTrabajadas - 8)
                * ((calcular_horas_dia registros fecha).horasRecargoNocturno
                    / (calcular_horas_dia registros fecha).horasTrabajadas))
          ∧ (calcular_horas_dia registros fecha).horasExtraDiurna
              = max 0 ((calcular_horas_dia registros fecha).horasTrabajadas - 8)
                - (calcular_horas_dia registros fecha).horasExtraNocturna
      else (calcular_horas_dia registros fecha).horasExtraNocturna = 0
          ∧ (calcular_horas_dia registros fecha).horasExtraDiurna = 0)
    ∧ (calcular_horas_dia registros fecha).horasRecargoNocturno
        = ((calcular_horas_dia registros fecha).intervalos.map
            Intervalo.horasNocturnas).sum
    ∧ (calcular_horas_dia registros fecha).horasDominical
        = (if fecha.weekday = 6 then
            (calcular_horas_dia registros fecha).horasTrabajadas else 0) := by
  have hht := horasTrabajadas_eq registros fecha
  have hrn := horasRecargoNocturno_eq registros fecha
  have hitv : (calcular_horas_dia registros fecha).intervalos
      = intervalosDia registros := rfl
  have hd : (calcular_horas_dia registros fecha).horasExtraDiurna
      = (extrasDia registros).1 := rfl
  have hn : (calcular_horas_dia registros fecha).horasExtraNocturna
      = (extrasDia registros).2 := rfl
  refine ⟨?_, ?_, ?_, ?_⟩
  · rw [horasOrdinarias_eq, hht]
  · rw [hht, hrn, hd, hn]
    by_cases h8 : 8 < horasTotalDia registros
    · rw [if_pos ⟨by simp [lt_max_iff]; linarith, by linarith⟩]
      obtain ⟨h2, h1⟩ := extrasDia_of_lt h8
      rw [max_eq_right (by linarith : (0:ℚ) ≤ horasTotalDia registros - 8)]
      exact ⟨h2, h1⟩
    · push_neg at h8
      rw [if_neg]
      · have := extrasDia_of_le h8
        rw [this]
        exact ⟨rfl, rfl⟩
      · rintro ⟨hpos, -⟩
        rw [max_eq_left (by linarith : horasTotalDia registros - 8 ≤ 0)] at hpos
        exact lt_irrefl 0 hpos
  · rw [hrn, hitv]
    rfl
  · rw [hht]
    simp only [calcular_horas_dia]
    by_cases hw : fecha.weekday = 6
    · rw [if_pos hw, if_pos (by simpa using hw)]
      exact round2_eq_self (centi_horasTotalDia registros)
    · rw [if_neg hw, if_neg (by simpa using hw)]

/-- C3: the classifier's interval list is exactly the one produced by the
claimed pairing rule — each `ENTRY` at position `i` is paired with the first
`EXIT` at a later position `j`, scanning resumes at `j+1`, and orphan
`ENTRY`s / orphan `EXIT`s contribute no interval and raise no error (the
pairing is a total function). -/
theorem c3_emparejamiento (registros : List Registro) (fecha : Fecha) :
    (calcular_horas_dia registros fecha).intervalos
      = (emparejarSpec registros).map intervaloDe := by
  have : (calcular_horas_dia registros fecha).intervalos
      = intervalosDia registros := rfl
  rw [this]
  unfold intervalosDia
  rw [emparejarDesde_eq_spec]

set_option maxRecDepth 40000 in
/-- C4: the nocturnal-hours computation equals, for every pair of times,
the exact count of interval minutes whose minute-of-day lies in
`[21:00, 24:00) ∪ [00:00, 06:00)` (midnight-crossing intervals normalized
to the next day), divided by 60 and rounded to two decimals; in particular
entry 22:00 / exit 04:00 yields 360 nocturnal minutes, i.e. 6.0 hours. -/
theorem c4_nocturnas_exactas :
    (∀ entrada salida : Tm,
      calcular_horas_nocturnas entrada salida
        = round2 ((minutosNocturnosSpec entrada salida : ℚ) / 60))
    ∧ minutosNocturnosSpec ⟨22, 0⟩ ⟨4, 0⟩ = 360
    ∧ calcular_horas_nocturnas ⟨22, 0⟩ ⟨4, 0⟩ = 6 := by
  have h360 : minutosNocturnosSpec ⟨22, 0⟩ ⟨4, 0⟩ = 360 := by decide
  refine ⟨calcular_horas_nocturnas_eq, h360, ?_⟩
  rw [calcular_horas_nocturnas_eq, h360]
  rw [show ((360 : ℕ) : ℚ) / 60 = ((6 : ℤ) : ℚ) from by norm_num]
  rw [round2_intCast]
  norm_num

/-- C5: for every one-day event list,
`ordinary + overtime_diurnal + overtime_nocturnal` equals `hours_worked`
to within 0.01 (in fact exactly), and `ordinary ≤ 8`. -/
theorem c5_invariantes (registros : List Registro) (fecha : Fecha) :
    |(calcular_horas_dia registros fecha).horasOrdinarias
        + (calcular_horas_dia registros fecha).horasExtraDiurna
        + (calcular_horas_dia registros fecha).horasExtraNocturna
        - (calcular_horas_dia registros fecha).horasTrabajadas| ≤ 1/100
    ∧ (calcular_horas_dia registros fecha).horasOrdinarias ≤ 8 := by
  constructor
  · rw [suma_categorias, sub_self, abs_zero]
    norm_num
  · rw [horasOrdinarias_eq]
    exact min_le_right _ _

/-- C6 counterexample: the claim says `calcular_diferencia_horas` FAILS
with `INVALID_INTERVAL` when entry and exit are identical.  The source has
no error path at all: at entry = exit = 10:00 it simply returns the value
0.0. -/
theorem c6_contraejemplo_tiempos_iguales :
    calcular_diferencia_horas ⟨10, 0⟩ ⟨10, 0⟩ = 0 := by
  rw [calcular_diferencia_horas_eq]
  rw [show minutosIntervalo ⟨10, 0⟩ ⟨10, 0⟩ = 0 from by decide]
  rw [show ((0 : ℤ) : ℚ) / 60 = ((0 : ℤ) : ℚ) from by norm_num]
  rw [round2_intCast]
  norm_num

/-- C6 (amended): `calcular_diferencia_horas` never fails; for every pair
of times it returns the interval length in fractional hours at minute
resolution, treating `exit < entry` as a midnight crossing; identical times
yield 0.0 rather than an `INVALID_INTERVAL` error. -/
theorem c6_diferencia_total (inicio fin : Tm) :
    calcular_diferencia_horas inicio fin
        = round2 ((minutosIntervalo inicio fin : ℚ) / 60)
    ∧ calcular_diferencia_horas inicio inicio = 0 := by
  refine ⟨calcular_diferencia_horas_eq inicio fin, ?_⟩
  rw [calcular_diferencia_horas_eq]
  rw [show minutosIntervalo inicio inicio = 0 from by
    unfold minutosIntervalo
    simp]
  rw [show ((0 : ℤ) : ℚ) / 60 = ((0 : ℤ) : ℚ) from by norm_num]
  rw [round2_intCast]
  norm_num

/-- C7 counterexample: the claim says `quincena` values outside {1, 2} are
rejected with `INVALID_ARGUMENT` before the handler runs and that
`resumen_nomina_quincenal` never computes a period for them.  No such
validation exists: `get_quincena_range(2025, 1, 3)` happily computes the
day-16-to-end period (identically to quincena 2) and the dispatcher passes
arguments through unchecked. -/
theorem c7_contraejemplo_quincena_tres :
    get_quincena_range 2025 1 3 = some (⟨2025, 1, 16⟩, ⟨2025, 1, 31⟩) := by
  decide

/-- C7 (amended): the POST dispatcher performs no integer-range validation;
`get_quincena_range` treats EVERY `quincena ≠ 1` exactly like quincena 2
(days 16 to end of month), and an out-of-range `mes` fails only inside the
handler when Python's `date` constructor raises (modelled by `none`),
surfacing as a −32000 handler error, not as `INVALID_ARGUMENT`. -/
theorem c7_quincena_distinta_de_uno (anio mes quincena : ℤ)
    (hq : quincena ≠ 1) :
    get_quincena_range anio mes quincena = get_quincena_range anio mes 2 := by
  unfold get_quincena_range
  rw [if_neg hq, if_neg (by norm_num : ¬(2 : ℤ) = 1)]

/-- Witness for C7: quincena 3 yields the same period as quincena 2. -/
theorem c7_quincena_distinta_de_uno_witness :
    get_quincena_range 2025 1 3 = get_quincena_range 2025 1 2 :=
  c7_quincena_distinta_de_uno 2025 1 3 (by decide)

/-- C8 counterexample: the claim says a notification without an id receives
a response whose id is null.  The source's notification branch for a
missing id returns `{"jsonrpc": "2.0", "result": {}}` with NO id member at
all (`idField = none`), not a null id (`some none`). -/
theorem c8_contraejemplo_notificacion_sin_id :
    (handle_streamable_http_post (fun _ _ => Except.ok ([] : Cadena))
        "notifications/initialized".toList none none ()).idField = none
    ∧ (handle_streamable_http_post (fun _ _ => Except.ok ([] : Cadena))
        "notifications/initialized".toList none none ()).idField
      ≠ some (none : Option JId) := by
  constructor
  · decide
  · decide

/-- C8 (amended): every request carrying an id `k` is answered with the
same id `k` (notifications included, which get the empty `{}` result); a
NON-notification request without an id is answered with a null id, while a
notification without an id is answered with no id member at all. -/
theorem c8_ids_respuesta {α : Type} (callTool : Cadena → α → Except Cadena Cadena)
    (method : Cadena) (msgId : Option JId) (toolName : Option Cadena) (toolArgs : α) :
    (∀ k, msgId = some k →
      (handle_streamable_http_post callTool method msgId toolName toolArgs).idField
        = some (some k))
    ∧ (msgId = none →
      (handle_streamable_http_post callTool method msgId toolName toolArgs).idField
        = (if esNotificacion method then none else some none))
    ∧ (esNotificacion method = true →
      (handle_streamable_http_post callTool method msgId toolName toolArgs).outcome
        = RpcOutcome.result RpcResult.emptyObj) := by
  refine ⟨?_, ?_, ?_⟩
  · intro k hk
    subst hk
    unfold handle_streamable_http_post
    by_cases hn : esNotificacion method = true
    · simp [hn]
    · simp only [hn, Bool.false_eq_true, if_false]
      split_ifs <;>
        first
          | rfl
          | (cases callTool (toolName.getD []) toolArgs <;> rfl)
  · intro hid
    subst hid
    unfold handle_streamable_http_post
    by_cases hn : esNotificacion method = true
    · simp [hn]
    · simp only [hn, Bool.false_eq_true, if_false]
      split_ifs <;>
        first
          | rfl
          | (cases callTool (toolName.getD []) toolArgs <;> rfl)
  · intro hn
    unfold handle_streamable_http_post
    rw [if_pos hn]
    cases msgId <;> rfl

/-- Witness for C8: a `tools/list` request with id 7 is answered with id 7,
and a notification without id is answered without an id member. -/
theorem c8_ids_respuesta_witness :
    (handle_streamable_http_post (fun _ _ => Except.ok ([] : Cadena))
        "tools/list".toList (some (JId.num 7)) none ()).idField
      = some (some (JId.num 7))
    ∧ (handle_streamable_http_post (fun _ _ => Except.ok ([] : Cadena))
        "notifications/initialized".toList none none ()).idField = none := by
  constructor
  · exact (c8_ids_respuesta (fun _ _ => Except.ok ([] : Cadena))
      "tools/list".toList (some (JId.num 7)) none ()).1 (JId.num 7) rfl
  · rw [(c8_ids_respuesta (fun _ _ => Except.ok ([] : Cadena))
      "notifications/initialized".toList none none ()).2.1 rfl]
    decide

/-- C9 counterexample: the claim asserts that for EVERY search term the
exact (case-insensitive) code match is ordered before all other matches.
With the term `"%"` (a legal search string, which reaches `ILIKE`
unescaped) an employee whose code is literally `"%"` is the unique exact
match, yet the employee with code `"A1"` — no exact match — sorts first,
because `'A1' ILIKE '%'` also puts key 0 on that row and the `apellido`
tie-break wins. -/
theorem c9_contraejemplo_comodin :
    ((buscar_empleado
        [⟨1, "%".toList, "Ana".toList, "Zz".toList, [], [], [], true⟩,
         ⟨2, "A1".toList, "Bob".toList, "Aa".toList, [], [], [], true⟩]
        "%".toList).empleados.map EmpleadoOut.codigoEmpleado
      = ["A1".toList, "%".toList])
    ∧ lowerCadena "A1".toList ≠ lowerCadena "%".toList
    ∧ ¬ ((buscar_empleado
        [⟨1, "%".toList, "Ana".toList, "Zz".toList, [], [], [], true⟩,
         ⟨2, "A1".toList, "Bob".toList, "Aa".toList, [], [], [], true⟩]
        "%".toList).empleados.Pairwise (fun a b =>
          lowerCadena b.codigoEmpleado = lowerCadena "%".toList →
          lowerCadena a.codigoEmpleado = lowerCadena "%".toList)) := by
  refine ⟨by decide, by decide, by decide⟩

/-- C9 (amended): for every database state and search term,
`buscar_empleado` returns at most 20 employees and its `resultados` field
equals the length of the returned list; and for every search term free of
the `ILIKE` wildcards `%` and `_` and of the escape character (backslash),
every employee preceding an exact (case-insensitive) code match in the
output is itself an exact code match — i.e. exact matches come first. -/
theorem c9_busqueda (db : List Empleado) (termino : Cadena) :
    (buscar_empleado db termino).resultados
        = (buscar_empleado db termino).empleados.length
    ∧ (buscar_empleado db termino).empleados.length ≤ 20
    ∧ ((∀ c ∈ lowerCadena termino, c ≠ '%' ∧ c ≠ '_' ∧ c ≠ '\\') →
        (buscar_empleado db termino).empleados.Pairwise (fun a b =>
          lowerCadena b.codigoEmpleado = lowerCadena termino →
          lowerCadena a.codigoEmpleado = lowerCadena termino)) := by
  refine ⟨rfl, ?_, ?_⟩
  · simp only [buscar_empleado, List.length_map]
    exact List.length_take_le ..
  · intro hw
    have hpair := pairwise_ordenarPor (leEmpleado termino) (claveBusqueda termino)
      (fun a b h => leEmpleado_key_le h) (fun a b h => leEmpleado_key_ge h)
      ((db.filter (fun e =>
        ilike e.codigo ('%' :: termino ++ ['%'])
        || ilike e.nombre ('%' :: termino ++ ['%'])
        || ilike e.apellido ('%' :: termino ++ ['%']))))
    have htake := hpair.sublist (List.take_sublist 20 _)
    simp only [buscar_empleado, List.pairwise_map]
    refine htake.imp ?_
    intro a b hab hexb
    have hb0 : claveBusqueda termino b = 0 := (claveBusqueda_eq_zero_iff hw).mpr hexb
    have ha0 : claveBusqueda termino a = 0 := by omega
    exact (claveBusqueda_eq_zero_iff hw).mp ha0

/-- Witness for C9: on a concrete two-row table with the wildcard-free term
`"a1"`, the exact code match is ordered first. -/
theorem c9_busqueda_witness :
    (buscar_empleado
        [⟨1, "B7".toList, "Ana".toList, "Aa".toList, [], [], [], true⟩,
         ⟨2, "A1".toList, "Bob".toList, "Zz".toList, [], [], [], true⟩]
        "a1".toList).empleados.Pairwise (fun a b =>
          lowerCadena b.codigoEmpleado = lowerCadena "a1".toList →
          lowerCadena a.codigoEmpleado = lowerCadena "a1".toList) :=
  (c9_busqueda
    [⟨1, "B7".toList, "Ana".toList, "Aa".toList, [], [], [], true⟩,
     ⟨2, "A1".toList, "Bob".toList, "Zz".toList, [], [], [], true⟩]
    "a1".toList).2.2 (by decide)

/-- C10: `obtener_ultimo_registro` answers `siguiente_accion = 'SALIDA'`
exactly when the employee's most recent record (the `ORDER BY fecha DESC,
hora DESC LIMIT 1` row) is an `ENTRADA`, and `'ENTRADA'` otherwise; with no
records at all it raises no error and returns a null `ultimo_registro`
together with `siguiente_accion = 'ENTRADA'`. -/
theorem c10_ultimo_registro (regs : List RegistroRow) :
    (regs = [] →
      (obtener_ultimo_registro regs).ultimoRegistro = none
      ∧ (obtener_ultimo_registro regs).siguienteAccion = TipoRegistro.ENTRADA)
    ∧ (∀ r, ultimoRegistroDe regs = some r →
        ((obtener_ultimo_registro regs).siguienteAccion = TipoRegistro.SALIDA
          ↔ r.tipo = TipoRegistro.ENTRADA)) := by
  constructor
  · rintro rfl
    exact ⟨rfl, rfl⟩
  · intro r hr
    unfold obtener_ultimo_registro
    rw [hr]
    by_cases ht : r.tipo = TipoRegistro.ENTRADA
    · simp [ht]
    · show (if r.tipo = TipoRegistro.ENTRADA then TipoRegistro.SALIDA
          else TipoRegistro.ENTRADA) = TipoRegistro.SALIDA
        ↔ r.tipo = TipoRegistro.ENTRADA
      rw [if_neg ht]
      constructor
      · intro hcontra
        exact absurd hcontra (by decide)
      · intro hcontra
        exact absurd hcontra ht

/-- Witness for C10: a single `ENTRADA` row makes the next action `SALIDA`,
and an empty record list yields a null last record with next action
`ENTRADA`. -/
theorem c10_ultimo_registro_witness :
    ((obtener_ultimo_registro [⟨⟨2025, 1, 5⟩, ⟨10, 0⟩, TipoRegistro.ENTRADA⟩]).siguienteAccion
        = TipoRegistro.SALIDA
      ↔ (⟨⟨2025, 1, 5⟩, ⟨10, 0⟩, TipoRegistro.ENTRADA⟩ : RegistroRow).tipo
        = TipoRegistro.ENTRADA)
    ∧ (obtener_ultimo_registro ([] : List RegistroRow)).ultimoRegistro = none := by
  constructor
  · exact (c10_ultimo_registro _).2 _ (by decide)
  · exact ((c10_ultimo_registro ([] : List RegistroRow)).1 rfl).1

end McpReportes
